import Mathlib

/-!
Verification development for the Infisical kubernetes-operator sources.

The definitions below are a shallow embedding of the Go sources:

* `internal/util/sse/sse.go` — the SSE line parser (`parseLine`), the event
  classifier (`isPingEvent`), the stream-processing loop (`processStream`),
  the reconnect loop (`reconnectLoop`), and the connection registry
  (`SubscribeWithParams`, `createConnectionLocked`, `closeConnectionLocked`,
  the health monitor swap) modelled as a transition system.
* the `InfisicalSecret` reconciler — the managed-object metadata computation
  (`createInfisicalManagedKubeResource`, `syncLabelsAndAnnotations`,
  `parseManagedKeys`, `formatManagedKeys`) and the etag call sites of
  `ReconcileInfisicalSecret`.
* `internal/util` helpers — `ConvertIntervalToDuration`, `AppendAPIEndpoint`.

Go strings are modelled at the character level; every byte-level operation the
sources perform (first-colon split, last-byte test, ASCII suffix test) agrees
with its character-level counterpart on UTF-8 strings because all the bytes
involved are ASCII.  Machine integers are modelled as `Int` with the explicit
two's-complement reduction `wrap64` wherever Go's int64 arithmetic can
overflow, and `strconv.Atoi`'s 64-bit range error is modelled.  Fallible Go
functions return `Except`/`Option`, with `none` standing for a runtime panic
where noted.
-/

/-- Go's `unicode.IsSpace`: the Unicode White_Space property, written out
(`strings.TrimSpace` trims exactly these characters). -/
def goIsSpace (c : Char) : Bool :=
  c = ' ' || c = '\t' || c = '\n' || c.val = 0x0b || c.val = 0x0c || c = '\r' ||
  c.val = 0x85 || c.val = 0xa0 || c.val = 0x1680 ||
  (0x2000 ≤ c.val && c.val ≤ 0x200a) || c.val = 0x2028 || c.val = 0x2029 ||
  c.val = 0x202f || c.val = 0x205f || c.val = 0x3000

/-- Go's `strings.TrimSpace`. -/
def goTrimSpace (s : String) : String :=
  String.mk (((s.toList.dropWhile goIsSpace).reverse.dropWhile goIsSpace).reverse)

/-- Go's `strings.HasSuffix`, at the character level (kernel-reducible, unlike
the position-based core `String.endsWith`). -/
def goHasSuffix (s t : String) : Bool :=
  t.toList.isSuffixOf s.toList

/-- Go's `strings.HasPrefix`, at the character level. -/
def goHasPrefix (s t : String) : Bool :=
  t.toList.isPrefixOf s.toList

/-- Go's `strings.Split` with a one-character separator, on character lists:
splitting the empty list gives one empty piece, as in Go. -/
def splitOnChar (sep : Char) : List Char → List (List Char)
  | [] => [[]]
  | c :: rest =>
    let r := splitOnChar sep rest
    if c = sep then [] :: r
    else
      match r with
      | [] => [[c]]
      | h :: t => (c :: h) :: t

/-- Go's `strings.Split` with a one-character separator. -/
def goSplit (s : String) (sep : Char) : List String :=
  (splitOnChar sep s.toList).map String.mk

/-- Source `sse.Event` (sse.go:16).  `Retry` is declared in the source but never
written by `parseLine` (the `retry` case is an empty stub), so it stays at its
zero value throughout. -/
structure Event where
  id : String := ""
  event : String := ""
  data : String := ""
  retry : Int := 0
deriving DecidableEq

/-- Source `parseLine` (sse.go:452): split the line at the first `:` byte, strip one
leading space from the value, then update the event (`event`, `id`) or the
data builder (`data`); lines without a colon, comment lines (empty field) and
`retry` lines change nothing.  Returns the updated event and data builder. -/
def parseLine (line : String) (ev : Event) (db : String) : Event × String :=
  match line.toList.findIdx? (· = ':') with
  | none => (ev, db)
  | some colonIndex =>
    let field := String.mk (line.toList.take colonIndex)
    let rawValue := String.mk (line.toList.drop (colonIndex + 1))
    let value :=
      if rawValue.toList.head? = some ' ' then String.mk rawValue.toList.tail else rawValue
    if field = "data" then
      (ev, (if db.length > 0 then db ++ "\n" else db) ++ value)
    else if field = "event" then ({ ev with event := value }, db)
    else if field = "id" then ({ ev with id := value }, db)
    else (ev, db)

/-- Source `isPingEvent` (sse.go:485). -/
def isPingEvent (ev : Event) : Bool :=
  if ev.event = "ping" then true
  else if ev.event = "" && goTrimSpace ev.data = "1" then true
  else false

/-- The loop state of `processStream` (sse.go:279): the accumulating
`currentEvent`, the `dataBuilder`, the events passed to the `onEvent`
callback in order, and the number of `UpdateLastPing` calls. -/
structure ProcState where
  cur : Event := {}
  db : String := ""
  dispatched : List Event := []
  pingCount : Nat := 0
deriving DecidableEq

/-- One iteration of the scanner loop of `processStream` (sse.go:292-326) on
`scanner.Text()`.  On an empty line the source dispatches only when
`currentEvent.Data != "" || currentEvent.Event != ""` — checked *before* the
data builder is folded into the event — and resets the builder only when it
dispatched. -/
def processLine (s : ProcState) (line : String) : ProcState :=
  if line.length = 0 then
    if s.cur.data ≠ "" || s.cur.event ≠ "" then
      let cur := if s.db.length > 0 then { s.cur with data := s.db } else s.cur
      let db := if s.db.length > 0 then "" else s.db
      if isPingEvent cur then
        { s with cur := {}, db := db, pingCount := s.pingCount + 1 }
      else
        { s with cur := {}, db := db, dispatched := s.dispatched ++ [cur] }
    else s
  else
    let p := parseLine line s.cur s.db
    { s with cur := p.1, db := p.2 }

/-- Source `processStream` (sse.go:279) run over a list of scanned lines, from the
initial state.  Context cancellation and the scanner-error epilogue are not
exercised by a well-formed finite stream and are modelled elsewhere. -/
def processStream (lines : List String) : ProcState :=
  lines.foldl processLine {}

/-- Modelled from the spec (§4.1 wire format): one well-formed SSE encoding of
an event — optional `id` and `event` field lines, the data split into one
`data` line per embedded newline, then the empty dispatch line. -/
def specEncodeEvent (ev : Event) : List String :=
  (if ev.id = "" then [] else ["id: " ++ ev.id]) ++
  (if ev.event = "" then [] else ["event: " ++ ev.event]) ++
  (if ev.data = "" then [] else (goSplit ev.data '\n').map (fun d => "data: " ++ d)) ++
  [""]

/-- Modelled from the spec (§4.1): encoding of a sequence of events. -/
def specEncodeEvents (evs : List Event) : List String :=
  (evs.map specEncodeEvent).flatten

/-- Nanosecond values of Go `time` durations. -/
def goSecond : Int := 1000000000

/-- Go `time.Minute` in nanoseconds. -/
def goMinute : Int := 60 * goSecond

/-- Go `time.Hour` in nanoseconds. -/
def goHour : Int := 60 * goMinute

/-- Decimal digit value. -/
def digitVal (c : Char) : Option Nat :=
  if '0' ≤ c && c ≤ '9' then some (c.toNat - '0'.toNat) else none

/-- Digits-only parse; `none` on an empty list or any non-digit. -/
def parseDigits (cs : List Char) : Option Nat :=
  if cs.isEmpty then none
  else
    cs.foldl
      (fun acc c =>
        match acc, digitVal c with
        | some n, some d => some (n * 10 + d)
        | _, _ => none)
      (some 0)

/-- Unbounded decimal integer: optional sign followed by at least one decimal
digit. -/
def decimalInt (s : String) : Option Int :=
  match s.toList with
  | [] => none
  | '+' :: rest => (parseDigits rest).map (fun n => (n : Int))
  | '-' :: rest => (parseDigits rest).map (fun n => -(n : Int))
  | cs => (parseDigits cs).map (fun n => (n : Int))

/-- Go's `strconv.Atoi` on a 64-bit platform: an optionally signed decimal
integer, rejected with ErrRange when the value falls outside the signed
64-bit range. -/
def goAtoi (s : String) : Option Int :=
  (decimalInt s).bind (fun n =>
    if -9223372036854775808 ≤ n ∧ n ≤ 9223372036854775807 then some n else none)

/-- Go int64 multiplication result: the mathematical value reduced into
two's-complement 64-bit range. -/
def wrap64 (x : Int) : Int :=
  (x + 9223372036854775808) % 18446744073709551616 - 9223372036854775808

/-- Source `ConvertIntervalToDuration` (util): `nil`/empty input means no resync
(zero); otherwise the last character is the unit and the rest is `Atoi`-parsed;
unit `s` additionally requires at least 5.  The result is in nanoseconds; each
`time.Duration` multiplication the source performs is an int64 multiplication
and wraps, modelled by one `wrap64` per `*` (the `d` and `w` branches multiply
left-to-right at runtime). -/
def ConvertIntervalToDuration (resyncInterval : Option String) : Except String Int :=
  match resyncInterval with
  | none => .ok 0
  | some s =>
    if s = "" then .ok 0
    else if s.length < 2 then .error "invalid format"
    else
      let unit := String.mk (s.toList.drop (s.length - 1))
      let numberPart := String.mk (s.toList.take (s.length - 1))
      match goAtoi numberPart with
      | none => .error "invalid syntax"
      | some number =>
        if unit = "s" then
          if number < 5 then .error "resync interval must be at least 5 seconds"
          else .ok (wrap64 (number * goSecond))
        else if unit = "m" then .ok (wrap64 (number * goMinute))
        else if unit = "h" then .ok (wrap64 (number * goHour))
        else if unit = "d" then .ok (wrap64 (wrap64 (number * 24) * goHour))
        else if unit = "w" then .ok (wrap64 (wrap64 (wrap64 (number * 7) * 24) * goHour))
        else .error "invalid time unit"

/-- Forget the error message of an `Except`. -/
def exceptToOption : Except String Int → Option Int
  | .ok v => some v
  | .error _ => none

/-- Stated from the words of claim C9 as written: empty means zero; otherwise
the string must be a decimal integer N followed by a unit in s,m,h,d,w, with N
at least 5 for unit s, and the value is N times the unit length — no integer
bounds anywhere. -/
def intervalClaimed (s : String) : Option Int :=
  if s = "" then some 0
  else
    match s.toList.getLast? with
    | none => none
    | some u =>
      if s.toList.dropLast.isEmpty then none
      else
        match decimalInt (String.mk s.toList.dropLast) with
        | none => none
        | some n =>
          if u = 's' then (if 5 ≤ n then some (n * goSecond) else none)
          else if u = 'm' then some (n * goMinute)
          else if u = 'h' then some (n * goHour)
          else if u = 'd' then some (n * 24 * goHour)
          else if u = 'w' then some (n * 7 * 24 * goHour)
          else none

/-- Stated from the words of the amended claim C9: as `intervalClaimed`, but N
must additionally lie within the signed 64-bit range (Atoi's ErrRange), and
the value is N times the unit length wrapped to a signed 64-bit integer. -/
def intervalAmended (s : String) : Option Int :=
  if s = "" then some 0
  else
    match s.toList.getLast? with
    | none => none
    | some u =>
      if s.toList.dropLast.isEmpty then none
      else
        match decimalInt (String.mk s.toList.dropLast) with
        | none => none
        | some n =>
          if n < -9223372036854775808 ∨ 9223372036854775807 < n then none
          else if u = 's' then (if 5 ≤ n then some (wrap64 (n * goSecond)) else none)
          else if u = 'm' then some (wrap64 (n * goMinute))
          else if u = 'h' then some (wrap64 (n * goHour))
          else if u = 'd' then some (wrap64 (n * (24 * goHour)))
          else if u = 'w' then some (wrap64 (n * (7 * 24 * goHour)))
          else none

/-- Source `AppendAPIEndpoint` (util): `none` models the Go index-out-of-range panic
at `address[len(address)-1]` on the empty string. -/
def AppendAPIEndpoint (address : String) : Option String :=
  if goHasSuffix address "/api" then some address
  else if address.length = 0 then none
  else if address.toList.getLast? = some '/' then some (address ++ "api")
  else some (address ++ "/api")







/-- Go `map[string]string`, modelled as an association list.  Go map keys are
unique; theorems that need this state it as a `nodupKeys` hypothesis. -/
abbrev StrMap := List (String × String)

/-- Map lookup: value of the first entry with the given key. -/
def mapFind : StrMap → String → Option String
  | [], _ => none
  | kv :: t, k => if kv.1 = k then some kv.2 else mapFind t k

/-- Go's `m[k]` on a string map: the zero value "" when the key is absent. -/
def mapFindD (m : StrMap) (k : String) : String :=
  (mapFind m k).getD ""

/-- Go's `m[k] = v`: overwrite the entry holding the key, or add a fresh
one; a Go map holds each key once, so replacing the first occurrence is the
map assignment. -/
def mapInsert : StrMap → String → String → StrMap
  | [], k, v => [(k, v)]
  | kv :: t, k, v => if kv.1 = k then (k, v) :: t else kv :: mapInsert t k v

/-- A Go `for k, v := range l`-style copy loop writing into `m`. -/
def mapInsertMany (m : StrMap) (l : StrMap) : StrMap :=
  l.foldl (fun acc kv => mapInsert acc kv.1 kv.2) m

/-- The key list of a map. -/
def mapKeys (m : StrMap) : List String :=
  m.map (fun kv => kv.1)

/-- Go maps cannot repeat a key. -/
def nodupKeys (m : StrMap) : Prop :=
  (mapKeys m).Nodup

/-- First-some choice on options, used to state lookup overlays. -/
def optOrElse (a b : Option String) : Option String :=
  match a with
  | some v => some v
  | none => b

/-- Modelled from the spec: the constants package is not under src; §3 names
the three engine marker annotations written on every managed object. -/
def MANAGED_LABELS_KEY : String := "infisical.managed-labels"

/-- Modelled from the spec: the managed-annotations tracking marker (§3). -/
def MANAGED_ANNOTATIONS_KEY : String := "infisical.managed-annotations"

/-- Modelled from the spec: the content-etag marker (§3). -/
def SECRET_VERSION_KEY : String := "infisical.secret-version"

/-- Source `SYSTEM_PREFIXES` (part_004:38). -/
def SYSTEM_PREFIXES : List String :=
  ["kubectl.kubernetes.io/", "kubernetes.io/", "k8s.io/", "helm.sh/"]

/-- The per-key system test the reconciler repeats wherever it consults
`SYSTEM_PREFIXES`: `strings.HasPrefix` against each entry. -/
def isSystemKey (k : String) : Bool :=
  SYSTEM_PREFIXES.any (fun p => goHasPrefix k p)

/-- Source `parseManagedKeys` (part_004:270): split the tracking annotation on
commas, trim, drop empties.  The source collects the keys into a set
(`map[string]bool`); modelled as the list of keys, used through membership. -/
def parseManagedKeys (value : String) : List String :=
  if value = "" then []
  else ((goSplit value ',').map goTrimSpace).filter (fun k => k ≠ "")

/-- Lexicographic order on character lists: Go's byte order on strings, which
for UTF-8 agrees with the character-level comparison used here. -/
def charListLe : List Char → List Char → Bool
  | [], _ => true
  | _ :: _, [] => false
  | a :: as, b :: bs => if a = b then charListLe as bs else decide (a < b)

/-- Insert into a `charListLe`-sorted list of strings. -/
def insertSorted (a : String) : List String → List String
  | [] => [a]
  | b :: rest =>
    if charListLe a.toList b.toList then a :: b :: rest else b :: insertSorted a rest

/-- Go's `sort.Strings`, as an insertion sort. -/
def sortStrings : List String → List String
  | [] => []
  | a :: rest => insertSorted a (sortStrings rest)

/-- Source `formatManagedKeys` (part_004:285): sort the keys and join with commas;
the empty set formats to "". -/
def formatManagedKeys (keys : List String) : String :=
  if keys.isEmpty then ""
  else String.intercalate "," (sortStrings keys)

/-- The managed-annotation key set: CR annotation keys carrying no system
prefix.  This loop appears verbatim on the create path (part_004:188-200) and
the sync path (part_004:311-323). -/
def nonSystemKeys (m : StrMap) : List String :=
  mapKeys (m.filter (fun kv => !isSystemKey kv.1))

/-- Shape selector of `createInfisicalManagedKubeResource`. -/
inductive ManagedKubeResourceType
  | secret
  | configMap
deriving DecidableEq

/-- The labels/annotations computation of `createInfisicalManagedKubeResource`
(part_004:163-248): labels copied from the CR; annotations copied from the CR
minus system-prefixed keys, plus the two tracking markers; the secret-version
marker is added in the Secret branch only — the ConfigMap branch reuses
`annotations` without it.  The rendered data payload is not modelled (no
claim depends on it). -/
def createResourceMeta (crLabels crAnnotations : StrMap) (etag : String)
    (resourceType : ManagedKubeResourceType) : StrMap × StrMap :=
  let labels := mapInsertMany [] crLabels
  let annotations := mapInsertMany [] (crAnnotations.filter (fun kv => !isSystemKey kv.1))
  let annotations := mapInsert annotations MANAGED_LABELS_KEY (formatManagedKeys (mapKeys crLabels))
  let annotations :=
    mapInsert annotations MANAGED_ANNOTATIONS_KEY (formatManagedKeys (nonSystemKeys crAnnotations))
  let annotations :=
    match resourceType with
    | .secret => mapInsert annotations SECRET_VERSION_KEY etag
    | .configMap => annotations
  (labels, annotations)

/-- Source `syncLabelsAndAnnotations` (part_004:300-374).  Returns
(newAnnotations, newLabels), in the source's order: existing entries survive
when system-prefixed, engine-owned, or not previously managed; CR entries are
overlaid; the two tracking markers are re-emitted from the CR's current
keys. -/
def syncLabelsAndAnnotations (crLabels crAnnotations existingAnnotations existingLabels : StrMap) :
    StrMap × StrMap :=
  let previouslyManagedLabels := parseManagedKeys (mapFindD existingAnnotations MANAGED_LABELS_KEY)
  let previouslyManagedAnnotations :=
    parseManagedKeys (mapFindD existingAnnotations MANAGED_ANNOTATIONS_KEY)
  let newLabels :=
    mapInsertMany [] (existingLabels.filter (fun kv => !previouslyManagedLabels.contains kv.1))
  let newLabels := mapInsertMany newLabels crLabels
  let newAnnotations :=
    mapInsertMany []
      (existingAnnotations.filter
        (fun kv =>
          isSystemKey kv.1 || kv.1 == SECRET_VERSION_KEY || kv.1 == MANAGED_LABELS_KEY ||
            kv.1 == MANAGED_ANNOTATIONS_KEY || !previouslyManagedAnnotations.contains kv.1))
  let newAnnotations :=
    mapInsertMany newAnnotations (crAnnotations.filter (fun kv => !isSystemKey kv.1))
  let newAnnotations :=
    mapInsert newAnnotations MANAGED_LABELS_KEY (formatManagedKeys (mapKeys crLabels))
  let newAnnotations :=
    mapInsert newAnnotations MANAGED_ANNOTATIONS_KEY (formatManagedKeys (nonSystemKeys crAnnotations))
  (newAnnotations, newLabels)

/-- The metadata writes of `updateInfisicalManagedKubeSecret`
(part_004:410-416) and `updateInfisicalManagedConfigMap` (part_004:461-467):
sync, then stamp the secret-version annotation with the etag; identical for
both shapes. -/
def updateResourceMeta (crLabels crAnnotations existingAnnotations existingLabels : StrMap)
    (etag : String) : StrMap × StrMap :=
  let r := syncLabelsAndAnnotations crLabels crAnnotations existingAnnotations existingLabels
  (mapInsert r.1 SECRET_VERSION_KEY etag, r.2)

/-- Modelled from the spec: `model.SingleEnvironmentVariable` (the model
package is not under src); §4.4 gives fetch records of key, value,
secretPath. -/
structure SingleEnvironmentVariable where
  key : String
  value : String
  secretPath : String
deriving DecidableEq

/-- Go fmt's %v of one fetch record: brace-wrapped, space-separated fields. -/
def goFormatVar (v : SingleEnvironmentVariable) : String :=
  "\x7b" ++ v.key ++ " " ++ v.value ++ " " ++ v.secretPath ++ "\x7d"

/-- Go fmt's %v of the fetched slice, the byte string built at the etag call
sites of `ReconcileInfisicalSecret` (part_004:698 and part_004:732):
bracket-wrapped, space-separated elements. -/
def goFormatVars (l : List SingleEnvironmentVariable) : String :=
  "[" ++ String.intercalate " " (l.map goFormatVar) ++ "]"

/-- Modelled from the spec: `crypto.ComputeEtag` (internal/crypto, not under
src) is a deterministic content hash of its input bytes.  It is modelled as an
injective function of those bytes, so etag equality coincides with equality of
the hashed inputs — the reading under which a collision-free hash is
compared. -/
def ComputeEtag (data : String) : String :=
  data

/-- The `newEtag` computation of `ReconcileInfisicalSecret` (part_004:698 and
part_004:732): the hash is taken over the %v rendering of the fetched list. -/
def newEtag (plainTextSecretsFromApi : List SingleEnvironmentVariable) : String :=
  ComputeEtag (goFormatVars plainTextSecretsFromApi)




/-- Source `SubscriptionParams` (sse.go:24); `Equals` (sse.go:48) compares all three
fields, which is plain equality here. -/
structure SubscriptionParams where
  projectID : String := ""
  envSlug : String := ""
  secretsPath : String := ""
deriving DecidableEq

/-- A `ConnectionMeta` (sse.go:55) together with the observable state of its
reader goroutine: `bodyClosed` and `cancelled` are set by
`closeConnectionLocked`; `readerExited` when its scanner loop returns.  The
reader is spawned at creation (sse.go:198). -/
structure ConnMeta where
  params : SubscriptionParams
  bodyClosed : Bool := false
  cancelled : Bool := false
  readerExited : Bool := false
deriving DecidableEq

/-- Observable ordering events of the registry: the body close and context
cancel of `closeConnectionLocked` and the slot install and `go processStream`
of `createConnectionLocked`, in program order. -/
inductive RegEv
  | bodyClosed (id : Nat)
  | cancelled (id : Nat)
  | installed (id : Nat)
  | readerStarted (id : Nat)
deriving DecidableEq

/-- Source `ConnectionRegistry` (sse.go:102): the `conn` slot (an index into the
log of ever-created metas), the pending `reconnectLoop` goroutines with their
captured params, the stored `requestFn`, and the registry context.  Each
mutex-guarded critical section of the source is one atomic step here; this is
faithful because every mutation of the slot happens under the mutex. -/
structure RegState where
  conns : List ConnMeta := []
  current : Option Nat := none
  pending : List SubscriptionParams := []
  requestFnStored : Bool := false
  closed : Bool := false
  log : List RegEv := []
deriving DecidableEq

/-- A connection context is done when the connection was cancelled or the
registry context (its parent, sse.go:184) was. -/
def connCtxDone (s : RegState) (meta : ConnMeta) : Bool :=
  meta.cancelled || s.closed

/-- Mark a meta closed in place. -/
def markClosed (conns : List ConnMeta) (c : Nat) : List ConnMeta :=
  match conns[c]? with
  | none => conns
  | some meta => conns.set c { meta with bodyClosed := true, cancelled := true }

/-- Source `closeConnectionLocked` (sse.go:204): close the body first, then cancel,
then clear the slot; a no-op on an empty slot. -/
def closeConnectionLocked (s : RegState) : RegState :=
  match s.current with
  | none => s
  | some c =>
    { s with
      conns := markClosed s.conns c, current := none,
      log := s.log ++ [.bodyClosed c, .cancelled c] }

/-- Source `createConnectionLocked` (sse.go:170): fails when the registry is closed
or the open call errs; otherwise installs a fresh meta over whatever occupies
the slot — without closing it — and spawns its reader.  Returns the new state
and whether the connection was installed. -/
def createConnectionLocked (s : RegState) (params : SubscriptionParams) (openOk : Bool) :
    RegState × Bool :=
  if s.closed then (s, false)
  else if !openOk then (s, false)
  else
    ({ s with
       conns := s.conns ++ [{ params := params }],
       current := some s.conns.length,
       log := s.log ++ [.installed s.conns.length, .readerStarted s.conns.length] }, true)

/-- Source `SubscribeWithParams` (sse.go:142): identical live params are a no-op;
otherwise the existing connection (changed params or dead) is closed, the
open operation is stored, and a new connection is created. -/
def subscribeStep (s : RegState) (params : SubscriptionParams) (openOk : Bool) : RegState :=
  let sameLive :=
    match s.current with
    | some c =>
      match s.conns[c]? with
      | some meta => meta.params == params && !connCtxDone s meta
      | none => false
    | none => false
  if sameLive then s
  else
    let s1 := closeConnectionLocked s
    let s2 := { s1 with requestFnStored := true }
    (createConnectionLocked s2 params openOk).1

/-- A transient scanner error in `processStream` (sse.go:328-345) on a
running reader, followed by `triggerReconnect` (sse.go:349-371): the reader
exits; unless the registry is closing or no open operation is stored, a
reconnect loop is spawned carrying the params of whatever connection occupies
the slot at that moment — not necessarily the erroring one, and empty params
when the slot is empty, exactly as the source reads `r.conn.params`. -/
def readerErrorStep (s : RegState) (id : Nat) : RegState :=
  match s.conns[id]? with
  | none => s
  | some meta =>
    if meta.readerExited || meta.bodyClosed || meta.cancelled then s
    else
      { s with
        conns := s.conns.set id { meta with readerExited := true },
        pending :=
          if s.closed || !s.requestFnStored then s.pending
          else
            s.pending ++
              [match s.current with
               | some c =>
                 match (s.conns.set id { meta with readerExited := true })[c]? with
                 | some cur => cur.params
                 | none => ({} : SubscriptionParams)
               | none => ({} : SubscriptionParams)] }

/-- One open attempt of a pending `reconnectLoop` (sse.go:388-394): under the
lock, `createConnectionLocked` installs over the slot without closing its
occupant; on success the loop returns, otherwise it stays pending for its
next backoff. -/
def reconnectAttemptStep (s : RegState) (i : Nat) (openOk : Bool) : RegState :=
  match s.pending[i]? with
  | none => s
  | some params =>
    let r := createConnectionLocked s params openOk
    if r.2 then { r.1 with pending := r.1.pending.eraseIdx i }
    else r.1

/-- A pending `reconnectLoop` ending without an install: a permanent error
(sse.go:397-400), exhausted retries (sse.go:409), or registry shutdown
observed in the backoff wait (sse.go:382). -/
def reconnectGiveUpStep (s : RegState) (i : Nat) : RegState :=
  { s with pending := if i < s.pending.length then s.pending.eraseIdx i else s.pending }

/-- A stale-connection detection by `checkConnectionHealth` (sse.go:522-557):
early return when the registry is closing or the slot is empty; otherwise
close the current connection and spawn a reconnect loop with its params
(when an open operation is stored). -/
def healthSwapStep (s : RegState) : RegState :=
  if s.closed then s
  else
    match s.current with
    | none => s
    | some c =>
      match s.conns[c]? with
      | none => s
      | some meta =>
        let s1 := closeConnectionLocked s
        { s1 with
          pending := if s.requestFnStored then s1.pending ++ [meta.params] else s1.pending }

/-- A reader whose body was closed or context cancelled observes it and
returns silently (sse.go:294-297 and sse.go:330-338). -/
def oldReaderExitStep (s : RegState) (id : Nat) : RegState :=
  match s.conns[id]? with
  | none => s
  | some meta =>
    if !meta.readerExited && (meta.bodyClosed || meta.cancelled || s.closed) then
      { s with conns := s.conns.set id { meta with readerExited := true } }
    else s

/-- Source `Close` (sse.go:253): close the connection, then cancel the registry
context. -/
def closeRegistryStep (s : RegState) : RegState :=
  let s1 := closeConnectionLocked s
  { s1 with closed := true }

/-- The interleaved operations the registry serializes. -/
inductive RegOp
  | subscribe (params : SubscriptionParams) (openOk : Bool)
  | readerError (id : Nat)
  | reconnectAttempt (i : Nat) (openOk : Bool)
  | reconnectGiveUp (i : Nat)
  | healthSwap
  | oldReaderExit (id : Nat)
  | closeRegistry
deriving DecidableEq

/-- One serialized registry step. -/
def regStep (s : RegState) : RegOp → RegState
  | .subscribe p ok => subscribeStep s p ok
  | .readerError id => readerErrorStep s id
  | .reconnectAttempt i ok => reconnectAttemptStep s i ok
  | .reconnectGiveUp i => reconnectGiveUpStep s i
  | .healthSwap => healthSwapStep s
  | .oldReaderExit id => oldReaderExitStep s id
  | .closeRegistry => closeRegistryStep s

/-- A run of the registry from its initial state. -/
def regRun (ops : List RegOp) : RegState :=
  ops.foldl regStep {}

/-- A meta is live while its body is open, its context uncancelled and its
reader running. -/
def liveConn (meta : ConnMeta) : Bool :=
  !meta.bodyClosed && !meta.cancelled && !meta.readerExited

/-- Indices of the live metas. -/
def liveIndices (s : RegState) : List Nat :=
  (List.range s.conns.length).filter (fun i =>
    match s.conns[i]? with
    | some meta => liveConn meta
    | none => false)

/-- Number of simultaneously live metas. -/
def liveCount (s : RegState) : Nat :=
  (liveIndices s).length

/-- Ops that never fire a pending reconnect loop's open attempt. -/
def isReconnectAttempt : RegOp → Bool
  | .reconnectAttempt _ _ => true
  | _ => false



/-- Source `ReconnectConfig` (sse.go:84).  `BackoffFactor` is a float64 in the
source; for the default factor 2.0 on backoffs of at most 30 s in
nanoseconds the float multiplication is exact, so the factor is modelled as
an integer. -/
structure ReconnectConfig where
  maxRetries : Nat
  initialBackoff : Int
  maxBackoff : Int
  backoffFactor : Int
deriving DecidableEq

/-- Source `DefaultReconnectConfig` (sse.go:92). -/
def DefaultReconnectConfig : ReconnectConfig :=
  { maxRetries := 5, initialBackoff := goSecond, maxBackoff := 30 * goSecond,
    backoffFactor := 2 }

/-- What one `createConnectionLocked` call inside the reconnect loop does. -/
inductive AttemptOutcome
  | success
  | transientErr
  | permanentErr
deriving DecidableEq

/-- The observable behaviour of one `reconnectLoop` run: the backoff slept
before each attempt in order, the number of attempts made, whether a
connection was installed, the `onError` invocations, and whether
`onReconnect` fired. -/
structure ReconnectTrace where
  waits : List Int
  attemptsMade : Nat
  installed : Bool
  onErrorCalls : Nat
  onReconnectCalled : Bool
deriving DecidableEq

/-- The loop body of `reconnectLoop` (sse.go:374-410), by remaining retries:
wait `backoff`, attempt; success returns; a permanent error reports and
returns; a transient error reports, doubles the backoff capping it at
`maxBackoff`, and continues; a run out of retries calls `onReconnect`. -/
def reconnectLoopAux (outcome : Nat → AttemptOutcome) (maxBackoff factor : Int) :
    Nat → Nat → Int → ReconnectTrace
  | 0, _, _ =>
    { waits := [], attemptsMade := 0, installed := false, onErrorCalls := 0,
      onReconnectCalled := true }
  | remaining + 1, attempt, backoff =>
    match outcome attempt with
    | .success =>
      { waits := [backoff], attemptsMade := 1, installed := true, onErrorCalls := 0,
        onReconnectCalled := false }
    | .permanentErr =>
      { waits := [backoff], attemptsMade := 1, installed := false, onErrorCalls := 1,
        onReconnectCalled := false }
    | .transientErr =>
      let rest := reconnectLoopAux outcome maxBackoff factor remaining (attempt + 1)
        (min (backoff * factor) maxBackoff)
      { waits := backoff :: rest.waits, attemptsMade := rest.attemptsMade + 1,
        installed := rest.installed, onErrorCalls := rest.onErrorCalls + 1,
        onReconnectCalled := rest.onReconnectCalled }

/-- Source `reconnectLoop` (sse.go:374) with a given per-attempt outcome.  Registry
shutdown during a backoff wait is not exercised by the runs the claim
quantifies over. -/
def reconnectLoop (cfg : ReconnectConfig) (outcome : Nat → AttemptOutcome) : ReconnectTrace :=
  reconnectLoopAux outcome cfg.maxBackoff cfg.backoffFactor cfg.maxRetries 0 cfg.initialBackoff


theorem optOrElse_none (a : Option String) : optOrElse a none = a := by
  cases a <;> rfl

theorem mapFind_insert_self (m : StrMap) (k v : String) :
    mapFind (mapInsert m k v) k = some v := by
  induction m with
  | nil => simp [mapInsert, mapFind]
  | cons kv t ih =>
    by_cases h : kv.1 = k <;> simp [mapInsert, mapFind, h, ih]

theorem mapFind_insert_ne (m : StrMap) (k' v k : String) (h : k' ≠ k) :
    mapFind (mapInsert m k' v) k = mapFind m k := by
  induction m with
  | nil => simp [mapInsert, mapFind, h]
  | cons kv t ih =>
    by_cases hk : kv.1 = k'
    · simp [mapInsert, mapFind, hk, h]
    · have hks : ¬k = k' := fun hh => h hh.symm
      by_cases hk2 : kv.1 = k <;> simp [mapInsert, mapFind, hk, hk2, ih, hks]

theorem mapFind_eq_none_of_not_mem (m : StrMap) (k : String) (h : k ∉ mapKeys m) :
    mapFind m k = none := by
  induction m with
  | nil => rfl
  | cons kv t ih =>
    rw [show mapKeys (kv :: t) = kv.1 :: mapKeys t from rfl, List.mem_cons] at h
    push_neg at h
    simp [mapFind, Ne.symm h.1, ih h.2]

theorem mapFind_insertMany (m l : StrMap) (k : String) (hl : nodupKeys l) :
    mapFind (mapInsertMany m l) k = optOrElse (mapFind l k) (mapFind m k) := by
  induction l generalizing m with
  | nil => simp [mapInsertMany, mapFind, optOrElse]
  | cons kv t ih =>
    have hnd : nodupKeys t := by
      simpa [nodupKeys, mapKeys] using (List.nodup_cons.mp hl).2
    have hstep : mapInsertMany m (kv :: t) = mapInsertMany (mapInsert m kv.1 kv.2) t := rfl
    rw [hstep, ih _ hnd]
    by_cases h : kv.1 = k
    · have hkt : k ∉ mapKeys t := by
        have := (List.nodup_cons.mp hl).1
        simpa [mapKeys, h] using this
      rw [mapFind_eq_none_of_not_mem t k hkt]
      subst h
      simp [mapFind, optOrElse, mapFind_insert_self]
    · simp [mapFind, h, mapFind_insert_ne m kv.1 kv.2 k h]

theorem mapFind_filter_key (p : String → Bool) (m : StrMap) (k : String) :
    mapFind (m.filter (fun kv => p kv.1)) k = if p k then mapFind m k else none := by
  induction m with
  | nil => simp [mapFind]
  | cons kv t ih =>
    by_cases hp : p kv.1
    · by_cases hk : kv.1 = k
      · subst hk
        simp [List.filter_cons, hp, mapFind]
      · simp [List.filter_cons, hp, mapFind, hk, ih]
    · by_cases hk : kv.1 = k
      · subst hk
        simp [List.filter_cons, hp, mapFind, ih]
      · simp [List.filter_cons, hp, mapFind, hk, ih]

theorem nodupKeys_filter (m : StrMap) (p : String × String → Bool) (h : nodupKeys m) :
    nodupKeys (m.filter p) := by
  unfold nodupKeys mapKeys at h ⊢
  exact (List.Sublist.map _ (List.filter_sublist m)).nodup h

/-- C5: `syncLabelsAndAnnotations` produces labels equal to the existing
labels minus the previously managed keys (parsed from the tracking
annotation), overlaid with the CR's labels; and it sets the managed-labels
tracking annotation to exactly the sorted comma-joined key set of the CR's
labels.  In particular a key previously managed but absent from the CR is
removed, and a foreign key never managed is preserved. -/
theorem sync_three_way_labels
    (crLabels crAnnotations existingAnnotations existingLabels : StrMap)
    (hLc : nodupKeys crLabels) (hE : nodupKeys existingLabels) :
    (∀ k : String,
      mapFind
        (syncLabelsAndAnnotations crLabels crAnnotations existingAnnotations existingLabels).2 k =
      optOrElse (mapFind crLabels k)
        (if (parseManagedKeys (mapFindD existingAnnotations MANAGED_LABELS_KEY)).contains k
          then none else mapFind existingLabels k)) ∧
    mapFind
      (syncLabelsAndAnnotations crLabels crAnnotations existingAnnotations existingLabels).1
      MANAGED_LABELS_KEY = some (formatManagedKeys (mapKeys crLabels)) := by
  constructor
  · intro k
    simp only [syncLabelsAndAnnotations]
    rw [mapFind_insertMany _ _ _ hLc]
    rw [mapFind_insertMany _ _ _
      (nodupKeys_filter existingLabels _ hE)]
    rw [show (mapFind ([] : StrMap) k) = none from rfl, optOrElse_none]
    rw [mapFind_filter_key
      (fun k0 =>
        !(parseManagedKeys (mapFindD existingAnnotations MANAGED_LABELS_KEY)).contains k0)
      existingLabels k]
    by_cases hc :
        (parseManagedKeys (mapFindD existingAnnotations MANAGED_LABELS_KEY)).contains k <;>
      simp [hc]
  · simp only [syncLabelsAndAnnotations]
    rw [mapFind_insert_ne _ _ _ _ (by decide), mapFind_insert_self]

/-- Witness for C5 at the label-drift scenario of spec §8 S3: the foreign
label `owner` survives, and the marker is the sorted CR key set. -/
theorem sync_three_way_labels_witness :
    mapFind
      (syncLabelsAndAnnotations [("team", "a"), ("tier", "gold")] []
        [(MANAGED_LABELS_KEY, "team")] [("team", "a"), ("owner", "ops")]).2 "owner" =
      optOrElse (mapFind [("team", "a"), ("tier", "gold")] "owner")
        (if (parseManagedKeys
              (mapFindD [(MANAGED_LABELS_KEY, "team")] MANAGED_LABELS_KEY)).contains "owner"
          then none else mapFind [("team", "a"), ("owner", "ops")] "owner") ∧
    mapFind
      (syncLabelsAndAnnotations [("team", "a"), ("tier", "gold")] []
        [(MANAGED_LABELS_KEY, "team")] [("team", "a"), ("owner", "ops")]).1
      MANAGED_LABELS_KEY =
      some (formatManagedKeys (mapKeys [("team", "a"), ("tier", "gold")])) :=
  ⟨(sync_three_way_labels _ _ _ _ (by unfold nodupKeys; decide) (by unfold nodupKeys; decide)).1
      "owner",
   (sync_three_way_labels _ _ _ _ (by unfold nodupKeys; decide) (by unfold nodupKeys; decide)).2⟩

/-- C7: the config-map create path writes the two tracking markers but not
the secret-version marker — `createInfisicalManagedKubeResource` adds the
etag annotation inside the Secret branch only — while the secret create path
and both update paths do stamp it. -/
theorem configMap_create_missing_secret_version :
    mapFind (createResourceMeta [("a", "b")] [("x", "y")] "etag1" .configMap).2
        SECRET_VERSION_KEY = none ∧
    mapFind (createResourceMeta [("a", "b")] [("x", "y")] "etag1" .configMap).2
        MANAGED_LABELS_KEY = some "a" ∧
    mapFind (createResourceMeta [("a", "b")] [("x", "y")] "etag1" .configMap).2
        MANAGED_ANNOTATIONS_KEY = some "x" ∧
    mapFind (createResourceMeta [("a", "b")] [("x", "y")] "etag1" .secret).2
        SECRET_VERSION_KEY = some "etag1" ∧
    mapFind (updateResourceMeta [("a", "b")] [("x", "y")] [] [] "etag1").1
        SECRET_VERSION_KEY = some "etag1" := by
  decide

/-- C8 counterexample: a CR label key with the system prefix
`kubernetes.io/` lands verbatim in the managed-labels tracking annotation,
on the create path and on the sync path alike — the label key sets are never
filtered against SYSTEM_PREFIXES. -/
theorem managed_labels_keep_system_key :
    isSystemKey "kubernetes.io/x" = true ∧
    mapFind (createResourceMeta [("kubernetes.io/x", "v")] [] "e" .secret).2
        MANAGED_LABELS_KEY = some "kubernetes.io/x" ∧
    mapFind (syncLabelsAndAnnotations [("kubernetes.io/x", "v")] [] [] []).1
        MANAGED_LABELS_KEY = some "kubernetes.io/x" := by
  decide

/-- C8 amended: a system-prefixed key never enters the managed-annotations
key set — both the create and the sync path compute it as `nonSystemKeys` and
format the marker from exactly that set — but the managed-labels marker is
formatted from the full CR label key set with no system filtering, so a
system-prefixed CR *label* key does appear in it (see the counterexample). -/
theorem system_keys_excluded_from_managed_annotations :
    (∀ (crAnnotations : StrMap) (k : String), isSystemKey k = true →
      k ∉ nonSystemKeys crAnnotations) ∧
    (∀ (crLabels crAnnotations : StrMap) (etag : String) (rt : ManagedKubeResourceType),
      mapFind (createResourceMeta crLabels crAnnotations etag rt).2 MANAGED_ANNOTATIONS_KEY =
        some (formatManagedKeys (nonSystemKeys crAnnotations)) ∧
      mapFind (createResourceMeta crLabels crAnnotations etag rt).2 MANAGED_LABELS_KEY =
        some (formatManagedKeys (mapKeys crLabels))) ∧
    (∀ crLabels crAnnotations existingAnnotations existingLabels : StrMap,
      mapFind
          (syncLabelsAndAnnotations crLabels crAnnotations existingAnnotations
            existingLabels).1 MANAGED_ANNOTATIONS_KEY =
        some (formatManagedKeys (nonSystemKeys crAnnotations)) ∧
      mapFind
          (syncLabelsAndAnnotations crLabels crAnnotations existingAnnotations
            existingLabels).1 MANAGED_LABELS_KEY =
        some (formatManagedKeys (mapKeys crLabels))) := by
  refine ⟨?_, ?_, ?_⟩
  · intro crAnnotations k hk hmem
    simp only [nonSystemKeys, mapKeys, List.mem_map, List.mem_filter] at hmem
    obtain ⟨kv, ⟨hmem2, hfilter⟩, hfst⟩ := hmem
    rw [hfst, hk] at hfilter
    simp at hfilter
  · intro crLabels crAnnotations etag rt
    cases rt
    · simp only [createResourceMeta]
      rw [mapFind_insert_ne _ _ _ _ (by decide), mapFind_insert_self,
        mapFind_insert_ne _ _ _ _ (by decide), mapFind_insert_ne _ _ _ _ (by decide),
        mapFind_insert_self]
      exact ⟨rfl, rfl⟩
    · simp only [createResourceMeta]
      rw [mapFind_insert_self, mapFind_insert_ne _ _ _ _ (by decide), mapFind_insert_self]
      exact ⟨rfl, rfl⟩
  · intro crLabels crAnnotations existingAnnotations existingLabels
    simp only [syncLabelsAndAnnotations]
    rw [mapFind_insert_self, mapFind_insert_ne _ _ _ _ (by decide), mapFind_insert_self]
    exact ⟨rfl, rfl⟩

/-- Witness for the C8 amended statement at a concrete CR annotation map. -/
theorem system_keys_excluded_witness :
    "kubernetes.io/y" ∉ nonSystemKeys [("a", "b"), ("kubernetes.io/y", "v")] :=
  system_keys_excluded_from_managed_annotations.1 _ _ (by decide)

/-- C4 counterexample: two fetch results that are permutations of each other
— the same key/value multiset — produce different etags, because the hashed
bytes are the order-dependent %v rendering of the list. -/
theorem etag_not_permutation_invariant :
    (([⟨"A", "1", "/"⟩, ⟨"B", "2", "/"⟩] : List SingleEnvironmentVariable).Perm
      [⟨"B", "2", "/"⟩, ⟨"A", "1", "/"⟩]) ∧
    newEtag [⟨"A", "1", "/"⟩, ⟨"B", "2", "/"⟩] ≠
      newEtag [⟨"B", "2", "/"⟩, ⟨"A", "1", "/"⟩] :=
  ⟨List.Perm.swap _ _ _, by decide⟩

/-- C4 amended: the etag is a deterministic function of the %v rendering of
the fetched list in fetch order — equal renderings give equal etags — but it
is not invariant under permutation of the list. -/
theorem etag_deterministic_in_fetch_order :
    (∀ l1 l2 : List SingleEnvironmentVariable,
      goFormatVars l1 = goFormatVars l2 → newEtag l1 = newEtag l2) ∧
    (∃ l1 l2 : List SingleEnvironmentVariable, l1.Perm l2 ∧ newEtag l1 ≠ newEtag l2) := by
  refine ⟨fun l1 l2 h => ?_, ?_⟩
  · unfold newEtag ComputeEtag
    exact h
  · exact ⟨[⟨"A", "1", "/"⟩, ⟨"B", "2", "/"⟩], [⟨"B", "2", "/"⟩, ⟨"A", "1", "/"⟩],
      List.Perm.swap _ _ _, by decide⟩

/-- Witness for the C4 amended statement at concrete equal renderings. -/
theorem etag_deterministic_witness :
    newEtag [⟨"A", "1", "/"⟩] = newEtag [⟨"A", "1", "/"⟩] :=
  etag_deterministic_in_fetch_order.1 _ _ rfl

/-- C1 (failing input): `["data: x", ""]` is the well-formed encoding of the
single non-ping event with empty event field and data "x", yet the loop
dispatches nothing — the dispatch guard reads `currentEvent.Data`, which is
populated only during finalization, so a data-only event is dropped and its
data stays in the builder, leaking into the next event. -/
theorem processStream_drops_data_only_event :
    specEncodeEvents [{ data := "x" }] = ["data: x", ""] ∧
    isPingEvent { data := "x" } = false ∧
    processStream ["data: x", ""] =
      { cur := {}, db := "x", dispatched := [], pingCount := 0 } := by
  decide

/-- C3: the classifier is exactly as claimed — an event is a ping iff its
event field is "ping", or the field is empty and the data trims to "1" — but
the loop never consumes a data-"1" ping: on its encoding `["data: 1", ""]`
the dispatch guard fails (the data builder is not yet folded into the
event), so `lastPingAt` is not updated and the data leaks. -/
theorem ping_classification_and_missed_consumption :
    (∀ ev : Event, isPingEvent ev = true ↔
      (ev.event = "ping" ∨ (ev.event = "" ∧ goTrimSpace ev.data = "1"))) ∧
    isPingEvent { data := "1" } = true ∧
    processStream ["data: 1", ""] =
      { cur := {}, db := "1", dispatched := [], pingCount := 0 } := by
  refine ⟨?_, by decide, by decide⟩
  intro ev
  unfold isPingEvent
  by_cases h1 : ev.event = "ping" <;> by_cases h2 : ev.event = "" <;>
    by_cases h3 : goTrimSpace ev.data = "1" <;> simp [h1, h2, h3]

/-- C10: `AppendAPIEndpoint` reaches the out-of-bounds index -1 on the empty
string (modelled as `none`); every non-empty input already ending in "/api"
is returned unchanged, and any other non-empty input gets "api" appended
after a trailing slash or "/api" otherwise, so the function is total exactly
on the non-empty strings. -/
theorem appendAPIEndpoint_totality_edge :
    AppendAPIEndpoint "" = none ∧
    (∀ s : String, s ≠ "" → goHasSuffix s "/api" = true → AppendAPIEndpoint s = some s) ∧
    (∀ s : String, s ≠ "" → goHasSuffix s "/api" = false →
      AppendAPIEndpoint s =
        some (s ++ (if s.toList.getLast? = some '/' then "api" else "/api"))) := by
  refine ⟨by decide, ?_, ?_⟩
  · intro s hne hsuf
    simp [AppendAPIEndpoint, hsuf]
  · intro s hne hsuf
    have hlen : ¬s.length = 0 := by
      intro h
      apply hne
      cases s with
      | mk data =>
        cases data with
        | nil => rfl
        | cons c cs => simp [String.length] at h
    by_cases hc : s.data.getLast? = some '/' <;>
      simp [AppendAPIEndpoint, String.toList, hsuf, hlen, hc]

/-- Witness for C10 at concrete inputs. -/
theorem appendAPIEndpoint_totality_edge_witness :
    AppendAPIEndpoint "host" = some "host/api" ∧
    AppendAPIEndpoint "x/api" = some "x/api" :=
  ⟨(appendAPIEndpoint_totality_edge.2.2 "host" (by decide) (by decide)).trans (by decide),
   appendAPIEndpoint_totality_edge.2.1 "x/api" (by decide) (by decide)⟩

theorem stringMk_eq_empty_iff (l : List Char) : String.mk l = "" ↔ l = [] := by
  constructor
  · intro h
    have h2 : (String.mk l).data = ("" : String).data := by rw [h]
    simpa using h2
  · intro h
    rw [h]

theorem stringMk_singleton_eq_iff (a c : Char) : String.mk [a] = String.mk [c] ↔ a = c := by
  constructor
  · intro h
    have h2 := congrArg String.data h
    simpa using h2
  · intro h
    rw [h]

theorem wrap64_emod (a : Int) :
    wrap64 a % 18446744073709551616 = a % 18446744073709551616 := by
  unfold wrap64
  omega

theorem wrap64_congr (a b : Int)
    (h : a % 18446744073709551616 = b % 18446744073709551616) : wrap64 a = wrap64 b := by
  unfold wrap64
  omega

theorem wrap64_mul_left (a b : Int) : wrap64 (wrap64 a * b) = wrap64 (a * b) := by
  apply wrap64_congr
  rw [Int.mul_emod, wrap64_emod, ← Int.mul_emod]

/-- C9 counterexample: the converter does not accept every decimal integer N,
nor does it always return N times the unit length.  For
"10000000000000000000h" (N beyond the signed 64-bit range) the source errors
with Atoi's ErrRange though the claim accepts it, and for "300000000000m" the
int64 multiplication wraps, so the returned duration is not N times the
unit. -/
theorem convertInterval_claim_counterexample :
    exceptToOption (ConvertIntervalToDuration (some "10000000000000000000h")) ≠
      intervalClaimed "10000000000000000000h" ∧
    exceptToOption (ConvertIntervalToDuration (some "300000000000m")) ≠
      intervalClaimed "300000000000m" := by
  refine ⟨by decide, by decide⟩

/-- C9 amended: the interval converter returns a non-error duration iff the
input is empty (zero, no periodic resync) or has the form a decimal integer N
followed by a unit among s, m, h, d, w, with N within the signed 64-bit range
(Atoi rejects larger values with ErrRange) and N at least 5 when the unit is
s; the returned duration is N times the unit's length wrapped to a signed
64-bit integer, hence equal to N times the unit's length whenever that
product fits in int64. -/
theorem convertInterval_amended_characterization (s : String) :
    exceptToOption (ConvertIntervalToDuration (some s)) = intervalAmended s := by
  obtain ⟨l⟩ := s
  rcases List.eq_nil_or_concat l with rfl | ⟨l', a, rfl⟩
  · rfl
  · simp only [List.concat_eq_append]
    have hne : String.mk (l' ++ [a]) ≠ "" := by
      rw [ne_eq, stringMk_eq_empty_iff]
      simp
    have hlen : (String.mk (l' ++ [a])).length = l'.length + 1 := by
      simp [String.length]
    have htl : (String.mk (l' ++ [a])).toList = l' ++ [a] := rfl
    by_cases hl : l' = []
    · subst hl
      simp only [ConvertIntervalToDuration, intervalAmended, exceptToOption, htl]
      rw [if_neg hne, if_neg hne, hlen]
      simp [List.getLast?_concat, List.dropLast_concat]
    · have h2 : ¬(l'.length + 1 < 2) := by
        have := List.length_pos.mpr hl
        omega
      simp only [ConvertIntervalToDuration, intervalAmended, exceptToOption, htl]
      rw [if_neg hne, if_neg hne, hlen, if_neg h2]
      have hsub : l'.length + 1 - 1 = l'.length := rfl
      rw [hsub, List.take_left, List.drop_left, List.getLast?_concat, List.dropLast_concat]
      have hemp : l'.isEmpty = false := by simp [hl]
      cases hA : decimalInt (String.mk l') with
      | none =>
        have hA2 : goAtoi (String.mk l') = none := by
          simp [goAtoi, hA]
        simp [hA, hA2, hemp]
      | some n =>
        by_cases hrange : -9223372036854775808 ≤ n ∧ n ≤ 9223372036854775807
        · have hA2 : goAtoi (String.mk l') = some n := by
            simp only [goAtoi, hA, Option.some_bind]
            rw [if_pos hrange]
          simp only [hA, hA2, hemp, Bool.false_eq_true, if_false]
          rw [if_neg (show ¬(n < -9223372036854775808 ∨ 9223372036854775807 < n) from by
            omega)]
          simp only [show ("s" : String) = String.mk ['s'] from rfl,
            show ("m" : String) = String.mk ['m'] from rfl,
            show ("h" : String) = String.mk ['h'] from rfl,
            show ("d" : String) = String.mk ['d'] from rfl,
            show ("w" : String) = String.mk ['w'] from rfl,
            stringMk_singleton_eq_iff]
          by_cases c1 : a = 's'
          · by_cases hn : n < 5
            · simp [c1, hn, show ¬(5 ≤ n) from by omega]
            · simp [c1, hn, show 5 ≤ n from by omega]
          · by_cases c2 : a = 'm'
            · simp [c1, c2]
            · by_cases c3 : a = 'h'
              · simp [c1, c2, c3]
              · by_cases c4 : a = 'd'
                · simp [c1, c2, c3, c4, wrap64_mul_left, mul_assoc]
                · by_cases c5 : a = 'w'
                  · simp [c1, c2, c3, c4, c5, wrap64_mul_left, mul_assoc]
                  · simp [c1, c2, c3, c4, c5]
        · have hA2 : goAtoi (String.mk l') = none := by
            simp only [goAtoi, hA, Option.some_bind]
            rw [if_neg hrange]
          have hout : n < -9223372036854775808 ∨ 9223372036854775807 < n := by
            omega
          simp [hA, hA2, hemp, hout]

theorem reconnectLoopAux_all_transient (outcome : Nat → AttemptOutcome) (mb f : Int) :
    ∀ (remaining attempt : Nat) (backoff : Int),
      (∀ i, i < remaining → outcome (attempt + i) = .transientErr) →
      reconnectLoopAux outcome mb f remaining attempt backoff =
        reconnectLoopAux (fun _ => .transientErr) mb f remaining attempt backoff := by
  intro remaining
  induction remaining with
  | zero =>
    intro attempt backoff h
    rfl
  | succ r ih =>
    intro attempt backoff h
    have h0 : outcome attempt = .transientErr := by simpa using h 0 (by omega)
    simp only [reconnectLoopAux, h0]
    rw [ih (attempt + 1) (min (backoff * f) mb) (fun i hi => by
      rw [show attempt + 1 + i = attempt + (i + 1) from by omega]
      exact h (i + 1) (by omega))]

theorem reconnectLoopAux_first_stop (outcome : Nat → AttemptOutcome) (mb f : Int) :
    ∀ (k remaining attempt : Nat) (backoff : Int), k < remaining →
      (∀ i, i < k → outcome (attempt + i) = .transientErr) →
      (outcome (attempt + k) = .success →
        (reconnectLoopAux outcome mb f remaining attempt backoff).attemptsMade = k + 1 ∧
        (reconnectLoopAux outcome mb f remaining attempt backoff).installed = true ∧
        (reconnectLoopAux outcome mb f remaining attempt backoff).onReconnectCalled = false) ∧
      (outcome (attempt + k) = .permanentErr →
        (reconnectLoopAux outcome mb f remaining attempt backoff).attemptsMade = k + 1 ∧
        (reconnectLoopAux outcome mb f remaining attempt backoff).installed = false ∧
        (reconnectLoopAux outcome mb f remaining attempt backoff).onReconnectCalled = false) := by
  intro k
  induction k with
  | zero =>
    intro remaining attempt backoff hk htrans
    match remaining, hk with
    | r + 1, _ =>
      constructor
      · intro hs
        rw [show attempt + 0 = attempt from rfl] at hs
        simp [reconnectLoopAux, hs]
      · intro hp
        rw [show attempt + 0 = attempt from rfl] at hp
        simp [reconnectLoopAux, hp]
  | succ k ih =>
    intro remaining attempt backoff hk htrans
    match remaining, hk with
    | r + 1, hk =>
      have h0 : outcome attempt = .transientErr := by simpa using htrans 0 (by omega)
      have hrec := ih r (attempt + 1) (min (backoff * f) mb) (by omega) (fun i hi => by
        rw [show attempt + 1 + i = attempt + (i + 1) from by omega]
        exact htrans (i + 1) (by omega))
      have hix : attempt + 1 + k = attempt + (k + 1) := by omega
      constructor
      · intro hs
        rw [← hix] at hs
        obtain ⟨h1, h2, h3⟩ := hrec.1 hs
        simp [reconnectLoopAux, h0, h1, h2, h3]
      · intro hp
        rw [← hix] at hp
        obtain ⟨h1, h2, h3⟩ := hrec.2 hp
        simp [reconnectLoopAux, h0, h1, h2, h3]

/-- C6: with the default configuration, a run in which every open attempt
fails transiently makes exactly 5 attempts preceded by backoff waits of 1, 2,
4, 8 and 16 seconds (doubling, capped at 30 s) and then invokes onReconnect
once with no sixth attempt; a first success at attempt k installs the
connection and exits after k+1 attempts without onReconnect; a first
permanent error stops after k+1 attempts, never invoking onReconnect. -/
theorem reconnectLoop_conformance :
    (∀ outcome : Nat → AttemptOutcome, (∀ i, i < 5 → outcome i = .transientErr) →
      reconnectLoop DefaultReconnectConfig outcome =
        { waits := [goSecond, 2 * goSecond, 4 * goSecond, 8 * goSecond, 16 * goSecond],
          attemptsMade := 5, installed := false, onErrorCalls := 5,
          onReconnectCalled := true }) ∧
    (∀ (outcome : Nat → AttemptOutcome) (k : Nat), k < 5 →
      (∀ i, i < k → outcome i = .transientErr) → outcome k = .success →
      (reconnectLoop DefaultReconnectConfig outcome).attemptsMade = k + 1 ∧
      (reconnectLoop DefaultReconnectConfig outcome).installed = true ∧
      (reconnectLoop DefaultReconnectConfig outcome).onReconnectCalled = false) ∧
    (∀ (outcome : Nat → AttemptOutcome) (k : Nat), k < 5 →
      (∀ i, i < k → outcome i = .transientErr) → outcome k = .permanentErr →
      (reconnectLoop DefaultReconnectConfig outcome).attemptsMade = k + 1 ∧
      (reconnectLoop DefaultReconnectConfig outcome).installed = false ∧
      (reconnectLoop DefaultReconnectConfig outcome).onReconnectCalled = false) := by
  refine ⟨?_, ?_, ?_⟩
  · intro outcome h
    show reconnectLoopAux outcome (30 * goSecond) 2 5 0 goSecond = _
    rw [reconnectLoopAux_all_transient outcome (30 * goSecond) 2 5 0 goSecond (fun i hi => by
      simpa using h i hi)]
    rfl
  · intro outcome k hk htrans hs
    exact (reconnectLoopAux_first_stop outcome (30 * goSecond) 2 k 5 0 goSecond hk
      (fun i hi => by simpa using htrans i hi)).1 (by simpa using hs)
  · intro outcome k hk htrans hp
    exact (reconnectLoopAux_first_stop outcome (30 * goSecond) 2 k 5 0 goSecond hk
      (fun i hi => by simpa using htrans i hi)).2 (by simpa using hp)

/-- Witness for C6: the all-transient run, a success at the third attempt,
and a permanent error at the second attempt. -/
theorem reconnectLoop_conformance_witness :
    reconnectLoop DefaultReconnectConfig (fun _ => .transientErr) =
      { waits := [goSecond, 2 * goSecond, 4 * goSecond, 8 * goSecond, 16 * goSecond],
        attemptsMade := 5, installed := false, onErrorCalls := 5,
        onReconnectCalled := true } ∧
    (reconnectLoop DefaultReconnectConfig
      (fun i => if i < 2 then .transientErr else .success)).installed = true ∧
    (reconnectLoop DefaultReconnectConfig
      (fun i => if i < 1 then .transientErr else .permanentErr)).onReconnectCalled = false := by
  refine ⟨reconnectLoop_conformance.1 _ (fun i _ => rfl), ?_, ?_⟩
  · exact (reconnectLoop_conformance.2.1 _ 2 (by omega) (fun i hi => by simp [hi])
      (by norm_num)).2.1
  · exact (reconnectLoop_conformance.2.2 _ 1 (by omega) (fun i hi => by simp [hi])
      (by norm_num)).2.2

theorem length_le_one_of_all_eq {l : List Nat} {c : Nat} (hnd : l.Nodup)
    (hall : ∀ x ∈ l, x = c) : l.length ≤ 1 := by
  match l with
  | [] => simp
  | [x] => simp
  | x :: y :: t =>
    exfalso
    have hx := hall x (by simp)
    have hy := hall y (by simp)
    rw [List.nodup_cons] at hnd
    exact hnd.1 (by rw [hx, ← hy]; simp)

theorem closeConnectionLocked_allDead (s : RegState)
    (hInv : ∀ (i : Nat) (meta : ConnMeta),
      s.conns[i]? = some meta → s.current ≠ some i → liveConn meta = false) :
    ∀ (i : Nat) (meta : ConnMeta),
      (closeConnectionLocked s).conns[i]? = some meta → liveConn meta = false := by
  intro i meta hget
  cases hc : s.current with
  | none =>
    simp only [closeConnectionLocked, hc] at hget
    exact hInv i meta hget (by simp [hc])
  | some c =>
    simp only [closeConnectionLocked, hc] at hget
    unfold markClosed at hget
    cases hmc : s.conns[c]? with
    | none =>
      rw [hmc] at hget
      by_cases hic : i = c
      · rw [hic, hmc] at hget
        exact absurd hget (by simp)
      · exact hInv i meta hget
          (by rw [hc]; intro hh; exact hic (Option.some.inj hh).symm)
    | some mc =>
      rw [hmc] at hget
      by_cases hic : i = c
      · subst hic
        have hlt : i < s.conns.length := by
          have := List.getElem?_eq_some.mp hmc
          exact this.1
        rw [List.getElem?_set_self hlt] at hget
        have hmeta : meta = { mc with bodyClosed := true, cancelled := true } :=
          (Option.some.injEq _ _ ▸ hget).symm
        rw [hmeta]
        simp [liveConn]
      · rw [List.getElem?_set_ne (fun hh : c = i => hic hh.symm)] at hget
        exact hInv i meta hget
          (by rw [hc]; intro hh; exact hic (Option.some.inj hh).symm)

theorem createConnectionLocked_inv (s : RegState) (p : SubscriptionParams) (ok : Bool)
    (hDead : ∀ (i : Nat) (meta : ConnMeta), s.conns[i]? = some meta → liveConn meta = false) :
    ∀ (i : Nat) (meta : ConnMeta), (createConnectionLocked s p ok).1.conns[i]? = some meta →
      (createConnectionLocked s p ok).1.current ≠ some i → liveConn meta = false := by
  intro i meta hget hcur
  by_cases hcl : s.closed
  · simp only [createConnectionLocked, if_pos hcl] at hget
    exact hDead i meta hget
  · cases ok with
    | false =>
      simp only [createConnectionLocked, if_neg hcl] at hget
      exact hDead i meta (by simpa using hget)
    | true =>
      simp only [createConnectionLocked, if_neg hcl] at hget hcur
      simp only [Bool.not_true, Bool.false_eq_true, if_false] at hget hcur
      by_cases hi : i < s.conns.length
      · rw [List.getElem?_append, if_pos hi] at hget
        exact hDead i meta hget
      · by_cases hie : i = s.conns.length
        · exact absurd (by simp [hie]) hcur
        · have : (s.conns ++ [{ params := p }])[i]? = none := by
            apply List.getElem?_eq_none
            simp
            omega
          rw [this] at hget
          exact absurd hget (by simp)

theorem set_dead_inv (s : RegState) (id : Nat) (m1 : ConnMeta)
    (hInv : ∀ (i : Nat) (meta : ConnMeta),
      s.conns[i]? = some meta → s.current ≠ some i → liveConn meta = false)
    (hm1 : liveConn m1 = false) :
    ∀ (i : Nat) (meta : ConnMeta), (s.conns.set id m1)[i]? = some meta → s.current ≠ some i →
      liveConn meta = false := by
  intro i meta hget hcur
  by_cases hic : i = id
  · subst hic
    by_cases hlt : i < s.conns.length
    · rw [List.getElem?_set_self hlt] at hget
      have hmeta : meta = m1 := (Option.some.injEq _ _ ▸ hget).symm
      rw [hmeta]
      exact hm1
    · have hnone : (s.conns.set i m1)[i]? = none := by
        rw [List.getElem?_eq_none]
        simp only [List.length_set]
        omega
      rw [hnone] at hget
      exact absurd hget (by simp)
  · rw [List.getElem?_set_ne (fun hh : id = i => hic hh.symm)] at hget
    exact hInv i meta hget hcur

theorem subscribeStep_inv (s : RegState) (p : SubscriptionParams) (ok : Bool)
    (hInv : ∀ (i : Nat) (meta : ConnMeta),
      s.conns[i]? = some meta → s.current ≠ some i → liveConn meta = false) :
    ∀ (i : Nat) (meta : ConnMeta), (subscribeStep s p ok).conns[i]? = some meta →
      (subscribeStep s p ok).current ≠ some i → liveConn meta = false := by
  simp only [subscribeStep]
  by_cases hb : (match s.current with
    | some c =>
      match s.conns[c]? with
      | some meta => meta.params == p && !connCtxDone s meta
      | none => false
    | none => false) = true
  · rw [if_pos hb]
    exact hInv
  · rw [if_neg hb]
    exact createConnectionLocked_inv _ p ok
      (fun j mj hj => closeConnectionLocked_allDead s hInv j mj hj)

theorem readerErrorStep_inv (s : RegState) (id : Nat)
    (hInv : ∀ (i : Nat) (meta : ConnMeta),
      s.conns[i]? = some meta → s.current ≠ some i → liveConn meta = false) :
    ∀ (i : Nat) (meta : ConnMeta), (readerErrorStep s id).conns[i]? = some meta →
      (readerErrorStep s id).current ≠ some i → liveConn meta = false := by
  cases hg : s.conns[id]? with
  | none =>
    simp only [readerErrorStep, hg]
    exact hInv
  | some m0 =>
    by_cases hguard : (m0.readerExited || m0.bodyClosed || m0.cancelled) = true
    · simp only [readerErrorStep, hg, if_pos hguard]
      exact hInv
    · simp only [readerErrorStep, hg, if_neg hguard]
      exact set_dead_inv s id _ hInv (by simp [liveConn])

theorem healthSwapStep_inv (s : RegState)
    (hInv : ∀ (i : Nat) (meta : ConnMeta),
      s.conns[i]? = some meta → s.current ≠ some i → liveConn meta = false) :
    ∀ (i : Nat) (meta : ConnMeta), (healthSwapStep s).conns[i]? = some meta →
      (healthSwapStep s).current ≠ some i → liveConn meta = false := by
  by_cases hcl : s.closed = true
  · simp only [healthSwapStep, if_pos hcl]
    exact hInv
  · cases hc : s.current with
    | none =>
      simp only [healthSwapStep, if_neg hcl, hc]
      exact fun i meta h hne => hInv i meta h (by rw [hc]; exact hne)
    | some c =>
      cases hg : s.conns[c]? with
      | none =>
        simp only [healthSwapStep, if_neg hcl, hc, hg]
        exact fun i meta h hne => hInv i meta h (by rw [hc]; exact hne)
      | some m0 =>
        simp only [healthSwapStep, if_neg hcl, hc, hg]
        exact fun i m h _ => closeConnectionLocked_allDead s hInv i m h

theorem oldReaderExitStep_inv (s : RegState) (id : Nat)
    (hInv : ∀ (i : Nat) (meta : ConnMeta),
      s.conns[i]? = some meta → s.current ≠ some i → liveConn meta = false) :
    ∀ (i : Nat) (meta : ConnMeta), (oldReaderExitStep s id).conns[i]? = some meta →
      (oldReaderExitStep s id).current ≠ some i → liveConn meta = false := by
  cases hg : s.conns[id]? with
  | none =>
    simp only [oldReaderExitStep, hg]
    exact hInv
  | some m0 =>
    by_cases hguard : (!m0.readerExited && (m0.bodyClosed || m0.cancelled || s.closed)) = true
    · simp only [oldReaderExitStep, hg, if_pos hguard]
      exact set_dead_inv s id _ hInv (by simp [liveConn])
    · simp only [oldReaderExitStep, hg, if_neg hguard]
      exact hInv

theorem regStep_inv (s : RegState) (op : RegOp) (hop : isReconnectAttempt op = false)
    (hInv : ∀ (i : Nat) (meta : ConnMeta),
      s.conns[i]? = some meta → s.current ≠ some i → liveConn meta = false) :
    ∀ (i : Nat) (meta : ConnMeta), (regStep s op).conns[i]? = some meta →
      (regStep s op).current ≠ some i → liveConn meta = false := by
  cases op with
  | subscribe p ok => exact subscribeStep_inv s p ok hInv
  | readerError id => exact readerErrorStep_inv s id hInv
  | reconnectAttempt i ok => exact absurd hop (by simp [isReconnectAttempt])
  | reconnectGiveUp i => exact hInv
  | healthSwap => exact healthSwapStep_inv s hInv
  | oldReaderExit id => exact oldReaderExitStep_inv s id hInv
  | closeRegistry => exact fun i m h _ => closeConnectionLocked_allDead s hInv i m h

theorem regRun_inv (ops : List RegOp) (hops : ∀ op ∈ ops, isReconnectAttempt op = false) :
    ∀ (i : Nat) (meta : ConnMeta), (regRun ops).conns[i]? = some meta →
      (regRun ops).current ≠ some i → liveConn meta = false := by
  have H : ∀ (l : List RegOp), (∀ op ∈ l, isReconnectAttempt op = false) →
      ∀ (t : RegState), (∀ (i : Nat) (meta : ConnMeta),
        t.conns[i]? = some meta → t.current ≠ some i → liveConn meta = false) →
      ∀ (i : Nat) (meta : ConnMeta), (l.foldl regStep t).conns[i]? = some meta →
        (l.foldl regStep t).current ≠ some i → liveConn meta = false := by
    intro l
    induction l with
    | nil => exact fun _ t ht => ht
    | cons op rest ih =>
      intro hl t ht
      exact ih (fun o ho => hl o (List.mem_cons_of_mem _ ho)) _
        (regStep_inv t op (hl op (List.mem_cons_self _ _)) ht)
  refine H ops hops {} ?_
  intro i meta h _
  rw [show (({} : RegState)).conns = ([] : List ConnMeta) from rfl] at h
  simp at h

theorem liveCount_le_one (s : RegState)
    (hInv : ∀ (i : Nat) (meta : ConnMeta),
      s.conns[i]? = some meta → s.current ≠ some i → liveConn meta = false) :
    liveCount s ≤ 1 := by
  unfold liveCount liveIndices
  have hall : ∀ x ∈ (List.range s.conns.length).filter (fun i =>
      match s.conns[i]? with
      | some meta => liveConn meta
      | none => false), s.current = some x := by
    intro x hx
    have hx2 := (List.mem_filter.mp hx).2
    cases hg : s.conns[x]? with
    | none =>
      simp only [hg] at hx2
      exact absurd hx2 (by simp)
    | some m =>
      simp only [hg] at hx2
      by_contra hne
      have hdead := hInv x m hg hne
      rw [hdead] at hx2
      exact absurd hx2 (by simp)
  have hnd : ((List.range s.conns.length).filter (fun i =>
      match s.conns[i]? with
      | some meta => liveConn meta
      | none => false)).Nodup :=
    (List.nodup_range _).filter _
  cases hc : s.current with
  | none =>
    cases hfe : (List.range s.conns.length).filter (fun i =>
        match s.conns[i]? with
        | some meta => liveConn meta
        | none => false) with
    | nil => simp [hfe]
    | cons a t =>
      have := hall a (by rw [hfe]; simp)
      rw [hc] at this
      exact absurd this (by simp)
  | some c =>
    refine length_le_one_of_all_eq (c := c) hnd ?_
    intro x hx
    have := hall x hx
    rw [hc] at this
    exact (Option.some.inj this).symm

/-- C2 counterexample: a reader error on the first connection schedules a
reconnect loop; a subscribe with new params then closes that connection and
installs a live second one; when the pending reconnect attempt fires,
`createConnectionLocked` overwrites the slot without closing its occupant,
leaving two simultaneously live connection metas. -/
theorem registry_two_live_connections :
    liveCount (regRun
      [.subscribe { projectID := "p1" } true,
       .readerError 0,
       .subscribe { projectID := "p2" } true,
       .reconnectAttempt 0 true]) = 2 := by
  decide

/-- C2 amended: as long as no pending reconnect-loop attempt installs a
connection, at most one connection meta is live after any operation
sequence; a subscribe over changed-or-dead params closes the old body and
cancels its context before the new reader starts (in that log order); and a
subscribe with params identical to a live connection changes nothing.  The
unrestricted claim fails because a reconnect attempt installs over the slot
without closing it (see the counterexample). -/
theorem registry_single_live_stream_amended :
    (∀ ops : List RegOp, (∀ op ∈ ops, isReconnectAttempt op = false) →
      liveCount (regRun ops) ≤ 1) ∧
    (∀ (s : RegState) (p : SubscriptionParams) (c : Nat) (meta : ConnMeta),
      s.current = some c → s.conns[c]? = some meta → s.closed = false →
      (meta.params ≠ p ∨ meta.cancelled = true) →
      (regStep s (.subscribe p true)).log =
        s.log ++ [.bodyClosed c, .cancelled c, .installed s.conns.length,
          .readerStarted s.conns.length]) ∧
    (∀ (s : RegState) (p : SubscriptionParams) (ok : Bool) (c : Nat) (meta : ConnMeta),
      s.current = some c → s.conns[c]? = some meta → meta.params = p →
      meta.cancelled = false → s.closed = false →
      regStep s (.subscribe p ok) = s) := by
  refine ⟨?_, ?_, ?_⟩
  · intro ops hops
    exact liveCount_le_one _ (regRun_inv ops hops)
  · intro s p c meta hc hg hcl hdiff
    have hdone : (meta.params == p && !connCtxDone s meta) = false := by
      cases hdiff with
      | inl hne => simp [beq_eq_false_iff_ne.mpr hne]
      | inr hcanc => simp [connCtxDone, hcanc]
    show (subscribeStep s p true).log = _
    simp only [subscribeStep, hc, hg, hdone, Bool.false_eq_true, if_false]
    simp only [closeConnectionLocked, hc]
    simp only [createConnectionLocked, hcl, Bool.false_eq_true, if_false, Bool.not_true]
    have hlen : (markClosed s.conns c).length = s.conns.length := by
      unfold markClosed
      rw [hg, List.length_set]
    simp [hlen, List.append_assoc]
  · intro s p ok c meta hc hg hp hcanc hcl
    have hdone : (meta.params == p && !connCtxDone s meta) = true := by
      simp [connCtxDone, hcanc, hcl, hp]
    show subscribeStep s p ok = s
    simp only [subscribeStep, hc, hg, hdone, if_true]

/-- Witness for the C2 amended statement: a reconnect-free run keeps at most
one live meta; a subscribe with changed params logs close-before-install;
a subscribe with identical live params is a no-op. -/
theorem registry_single_live_stream_amended_witness :
    liveCount (regRun
      [.subscribe { projectID := "p1" } true, .healthSwap,
       .subscribe { projectID := "p2" } true]) ≤ 1 ∧
    (regStep (regRun [.subscribe { projectID := "p1" } true])
        (.subscribe { projectID := "p2" } true)).log =
      (regRun [.subscribe { projectID := "p1" } true]).log ++
        [.bodyClosed 0, .cancelled 0,
         .installed (regRun [.subscribe { projectID := "p1" } true]).conns.length,
         .readerStarted (regRun [.subscribe { projectID := "p1" } true]).conns.length] ∧
    regStep (regRun [.subscribe { projectID := "p1" } true])
        (.subscribe { projectID := "p1" } true) =
      regRun [.subscribe { projectID := "p1" } true] := by
  refine ⟨registry_single_live_stream_amended.1 _ (by decide), ?_, ?_⟩
  · exact registry_single_live_stream_amended.2.1 _ _ 0
      { params := { projectID := "p1" } } (by decide) (by decide) (by decide)
      (Or.inl (by decide))
  · exact registry_single_live_stream_amended.2.2 _ _ true 0
      { params := { projectID := "p1" } } (by decide) (by decide) (by decide) (by decide)
      (by decide)
